import Mathlib

/-!
Verification development for the immich admin user-management slice
(`src/server/src/services/user-admin.service.ts`).

The orchestrator (`UserAdminService`) is embedded as a family of pure state
transformers over an explicit environment `Env` holding the user store, a
trace of collaborator calls (album store, job queue, metadata upserts,
usage sync, user-core patch), the current wall-clock time and an id
allocator.  External collaborators whose code is not part of this slice
(`UserCore.createUser`/`updateUser`, the preference utilities) are modelled
from the specification and marked as such in their doc comments.
-/

namespace Immich

/-- User lifecycle status, from `src/entities/user.entity.ts` (`UserStatus`). -/
inductive UserStatus
  | ACTIVE
  | DELETED
  | REMOVING
deriving DecidableEq, Repr

/-- Modelled from the spec: avatar colors form a small closed set of color
names (the spec lists "avatar color" as an attribute; the DTO validation
restricting it to an enum of color names is outside this slice). -/
inductive UserAvatarColor
  | primary
  | pink
  | red
  | yellow
  | blue
  | green
  | purple
  | orange
  | gray
deriving DecidableEq, Repr

/-- Modelled from the spec: the PREFERENCES metadata value, "stored as a
sparse patch rather than a full object". -/
structure PreferencesValue where
  memoriesEnabled : Option Bool := none
  avatarColor : Option UserAvatarColor := none
deriving DecidableEq, Repr

/-- A persisted user record (the fields of `UserEntity` this slice reads or
writes, plus the stored PREFERENCES metadata patch). `deletedAt` is a
nullable timestamp, modelled as `Option Nat`. -/
structure User where
  id : Nat
  email : String
  name : String
  isAdmin : Bool
  status : UserStatus
  deletedAt : Option Nat
  quotaSizeInBytes : Option Int
  shouldChangePassword : Bool
  metadataPreferences : PreferencesValue
deriving DecidableEq, Repr

/-- Effective preferences: stored patch merged with defaults at read time. -/
structure Preferences where
  memoriesEnabled : Bool
  avatarColor : UserAvatarColor
deriving DecidableEq, Repr

/-- Modelled from the spec: system defaults for effective preferences
(memories on, default avatar color). -/
def defaultPreferences : Preferences :=
  { memoriesEnabled := true, avatarColor := .primary }

/-- Modelled from the spec: `getPreferences(user)` from
`src/utils/preferences.ts` (not in this slice) "derives effective preference
values from a user record" by overlaying the stored patch on the defaults. -/
def getPreferences (u : User) : Preferences :=
  { memoriesEnabled := u.metadataPreferences.memoriesEnabled.getD defaultPreferences.memoriesEnabled,
    avatarColor := u.metadataPreferences.avatarColor.getD defaultPreferences.avatarColor }

/-- Modelled from the spec: `getPreferencesPartial(user, newPrefs)` from
`src/utils/preferences.ts` (not in this slice) "computes a minimal patch to
persist": the field-wise diff of the new preferences against the user's
current effective preferences. -/
def getPreferencesPartial (u : User) (p : Preferences) : PreferencesValue :=
  { memoriesEnabled :=
      if p.memoriesEnabled = (getPreferences u).memoriesEnabled then none else some p.memoriesEnabled,
    avatarColor :=
      if p.avatarColor = (getPreferences u).avatarColor then none else some p.avatarColor }

/-- Job payloads used by this slice: `JobName.NOTIFY_SIGNUP` with
`{ id, tempPassword }` and `JobName.USER_DELETION` with `{ id, force }`. -/
inductive JobData
  | NOTIFY_SIGNUP (id : Nat) (tempPassword : Option String)
  | USER_DELETION (id : Nat) (force : Bool)
deriving DecidableEq, Repr

/-- The patch shape this service hands to `userRepository.update`: only
`status` and `deletedAt`. An outer `some` means the field is written;
`deletedAt := some none` writes SQL NULL. -/
structure UserRepoPatch where
  status : Option UserStatus := none
  deletedAt : Option (Option Nat) := none
deriving DecidableEq, Repr

/-- `UserAdminUpdateDto`: a partial patch keyed by optional presence.
`quotaSizeInBytes` is `number | null | undefined` in the source, hence
`Option (Option Int)` (`none` = absent, `some none` = null). -/
structure UserAdminUpdateDto where
  email : Option String := none
  name : Option String := none
  quotaSizeInBytes : Option (Option Int) := none
  shouldChangePassword : Option Bool := none
  memoriesEnabled : Option Bool := none
  avatarColor : Option UserAvatarColor := none
deriving DecidableEq, Repr

/-- `UserAdminCreateDto` (email, password, name, quota, memoriesEnabled,
notify; `shouldChangePassword` determines the created user's flag). -/
structure UserAdminCreateDto where
  email : String
  password : String
  name : String
  quotaSizeInBytes : Option Int := none
  shouldChangePassword : Bool := true
  memoriesEnabled : Option Bool := none
  notify : Bool := false
deriving DecidableEq, Repr

/-- `UserAdminDeleteDto`: the `force` flag (absent behaves as `false`). -/
structure UserAdminDeleteDto where
  force : Bool := false
deriving DecidableEq, Repr

/-- The authenticated caller; authorization is enforced by the transport
layer before these operations run, so only its presence is modelled. -/
structure AuthDto where
  userId : Nat := 0
deriving DecidableEq, Repr

/-- One collaborator call observable from outside the orchestrator. -/
inductive Event
  | albumSoftDeleteAll (ownerId : Nat)
  | albumRestoreAll (ownerId : Nat)
  | queueJob (data : JobData)
  | syncUsage (userId : Nat)
  | upsertMetadata (userId : Nat) (value : PreferencesValue)
  | userUpdate (userId : Nat) (patch : UserRepoPatch)
  | userCoreUpdate (userId : Nat) (dto : UserAdminUpdateDto)
deriving DecidableEq, Repr

/-- Client-facing errors thrown by this service: `BadRequestException`
("User not found") and `ForbiddenException` ("Cannot delete admin user"). -/
inductive Err
  | badRequest (message : String)
  | forbidden (message : String)
deriving DecidableEq, Repr

/-- The world the orchestrator acts on: the user store, the ordered trace of
collaborator calls, the current time (`new Date()`), and the id the store
will assign to the next created user. -/
structure Env where
  users : List User
  events : List Event
  time : Nat
  nextId : Nat
deriving DecidableEq, Repr

/-- Append one collaborator call to the trace. -/
def Env.emit (env : Env) (e : Event) : Env :=
  { env with events := env.events ++ [e] }

/-- `userRepository.get(id, { withDeleted })`: soft-deleted rows
(`deletedAt` non-null) are excluded unless `withDeleted` is set. -/
def userGet (users : List User) (id : Nat) (withDeleted : Bool) : Option User :=
  users.find? (fun u => u.id == id && (withDeleted || u.deletedAt.isNone))

/-- Row lookup by primary key, ignoring soft deletion (what a plain SQL
UPDATE targets). -/
def findById (users : List User) (id : Nat) : Option User :=
  users.find? (fun u => u.id == id)

/-- Apply an in-store function to the row(s) with the given id. -/
def storeUpdate (users : List User) (id : Nat) (f : User → User) : List User :=
  users.map (fun u => if u.id == id then f u else u)

/-- Apply a `status`/`deletedAt` patch to a row. -/
def applyRepoPatch (p : UserRepoPatch) (u : User) : User :=
  { u with status := p.status.getD u.status, deletedAt := p.deletedAt.getD u.deletedAt }

/-- `userRepository.update(id, patch)`: patch the row and return the updated
row (alongside the new environment, with the write recorded in the trace). -/
def userRepoUpdate (env : Env) (id : Nat) (p : UserRepoPatch) : Option User × Env :=
  ((findById env.users id).map (applyRepoPatch p),
   { env with
       users := storeUpdate env.users id (applyRepoPatch p),
       events := env.events ++ [.userUpdate id p] })

/-- `userRepository.upsertMetadata(id, { key: PREFERENCES, value })`:
replace the stored PREFERENCES value for the user and record the call. -/
def upsertMetadata (env : Env) (id : Nat) (v : PreferencesValue) : Env :=
  { env with
      users := storeUpdate env.users id (fun u => { u with metadataPreferences := v }),
      events := env.events ++ [.upsertMetadata id v] }

/-- `UserAdminService.findOrFail(id, options)`: resolve the user or throw
`BadRequestException('User not found')`. -/
def findOrFail (env : Env) (id : Nat) (withDeleted : Bool) : Except Err User :=
  match userGet env.users id withDeleted with
  | some u => .ok u
  | none => .error (.badRequest "User not found")

/-- JavaScript truthiness of the dto's `quotaSizeInBytes` value:
`undefined`, `null` and `0` are falsy. -/
def quotaTruthy : Option (Option Int) → Bool
  | some (some n) => n != 0
  | _ => false

/-- Modelled from the spec: `UserCore.updateUser` (in
`src/cores/user.core.ts`, not in this slice) "applies the remaining patch
fields (name, email, quota, etc.)" to the user row; its field-level
authorization rules are external and not re-specified. -/
def applyUpdateDto (dto : UserAdminUpdateDto) (u : User) : User :=
  { u with
      email := dto.email.getD u.email,
      name := dto.name.getD u.name,
      quotaSizeInBytes := dto.quotaSizeInBytes.getD u.quotaSizeInBytes,
      shouldChangePassword := dto.shouldChangePassword.getD u.shouldChangePassword }

/-- Modelled from the spec: the write performed by `UserCore.updateUser`,
returning the updated row and recording the call (with the dto it was
handed) in the trace. -/
def userCoreUpdateUser (env : Env) (id : Nat) (dto : UserAdminUpdateDto) : Option User × Env :=
  ((findById env.users id).map (applyUpdateDto dto),
   { env with
       users := storeUpdate env.users id (applyUpdateDto dto),
       events := env.events ++ [.userCoreUpdate id dto] })

/-- Modelled from the spec: the record `UserCore.createUser` constructs
"from the command (email, password, name, quota)"; the created record is
ACTIVE with `deletedAt = null`. -/
def newUserRecord (env : Env) (dto : UserAdminCreateDto) : User :=
  { id := env.nextId
    email := dto.email
    name := dto.name
    isAdmin := false
    status := .ACTIVE
    deletedAt := none
    quotaSizeInBytes := dto.quotaSizeInBytes
    shouldChangePassword := dto.shouldChangePassword
    metadataPreferences := {} }

/-- Modelled from the spec: `UserCore.createUser` (in
`src/cores/user.core.ts`, not in this slice) persists a new user record; a
duplicate email is rejected with a bad-request-class error. -/
def userCoreCreateUser (env : Env) (dto : UserAdminCreateDto) : Except Err User × Env :=
  if env.users.any (fun u => u.email == dto.email) then
    (.error (.badRequest "User exists"), env)
  else
    let user := newUserRecord env dto
    (.ok user, { env with users := env.users ++ [user], nextId := env.nextId + 1 })

namespace UserAdminService

/-- `UserAdminService.search`: list users, optionally with soft-deleted. -/
def search (env : Env) (_auth : AuthDto) (withDeleted : Bool) : List User × Env :=
  (if withDeleted then env.users else env.users.filter (fun u => u.deletedAt.isNone), env)

/-- `UserAdminService.create`: create the user; on `memoriesEnabled ===
false` upsert the preferences metadata and re-fetch; compute `tempPassword`
from the created user's `shouldChangePassword`; enqueue `NOTIFY_SIGNUP`
only when `notify` is set. -/
def create (env : Env) (dto : UserAdminCreateDto) : Except Err User × Env :=
  match userCoreCreateUser env dto with
  | (.error e, envE) => (.error e, envE)
  | (.ok user0, env1) =>
    let (userRes, env2) :=
      if dto.memoriesEnabled == some false then
        let envM := upsertMetadata env1 user0.id { memoriesEnabled := some false }
        (userGet envM.users user0.id false, envM)
      else (some user0, env1)
    match userRes with
    | none => (.error (.badRequest "User not found"), env2)
    | some user =>
      let tempPassword := if user.shouldChangePassword then some dto.password else none
      let env3 :=
        if dto.notify then env2.emit (.queueJob (.NOTIFY_SIGNUP user.id tempPassword))
        else env2
      (.ok user, env3)

/-- `UserAdminService.update`: resolve the target (soft-deleted excluded);
sync usage when the dto carries a truthy quota differing from the stored
one; fold legacy `memoriesEnabled`/`avatarColor` shortcuts into a
preferences-metadata upsert, deleting them from the dto; then apply the
remaining patch through the user core. -/
def update (env : Env) (_auth : AuthDto) (id : Nat) (dto : UserAdminUpdateDto) :
    Except Err User × Env :=
  match findOrFail env id false with
  | .error e => (.error e, env)
  | .ok user =>
    let env1 :=
      if quotaTruthy dto.quotaSizeInBytes
          && !(match dto.quotaSizeInBytes with
               | some q => user.quotaSizeInBytes == q
               | none => false) then
        env.emit (.syncUsage id)
      else env
    let (dto2, env2) :=
      if dto.memoriesEnabled.isSome || dto.avatarColor.isSome then
        let newPreferences := getPreferences user
        let (newPreferences, dtoA) :=
          match dto.memoriesEnabled with
          | some b => ({ newPreferences with memoriesEnabled := b }, { dto with memoriesEnabled := none })
          | none => (newPreferences, dto)
        let (newPreferences, dtoB) :=
          match dtoA.avatarColor with
          | some c => ({ newPreferences with avatarColor := c }, { dtoA with avatarColor := none })
          | none => (newPreferences, dtoA)
        (dtoB, upsertMetadata env1 id (getPreferencesPartial user newPreferences))
      else (dto, env1)
    let r := userCoreUpdateUser env2 id dto2
    ((match r.1 with
      | none => .error (.badRequest "User not found")
      | some u2 => .ok u2), r.2)

/-- `UserAdminService.delete`: resolve the target (soft-deleted excluded) or
fail not-found; refuse admins with `ForbiddenException('Cannot delete admin
user')`; soft-delete the user's albums; write `status` (REMOVING when
forced, else DELETED) and `deletedAt = now` in one update; when forced,
enqueue one `USER_DELETION` job with the user id and the force flag. -/
def delete (env : Env) (_auth : AuthDto) (id : Nat) (dto : UserAdminDeleteDto) :
    Except Err User × Env :=
  match findOrFail env id false with
  | .error e => (.error e, env)
  | .ok u0 =>
    if u0.isAdmin then
      (.error (.forbidden "Cannot delete admin user"), env)
    else
      let env1 := env.emit (.albumSoftDeleteAll id)
      let status : UserStatus := if dto.force then .REMOVING else .DELETED
      match userRepoUpdate env1 id { status := some status, deletedAt := some (some env1.time) } with
      | (none, env2) => (.error (.badRequest "User not found"), env2)
      | (some user, env2) =>
        let env3 :=
          if dto.force then env2.emit (.queueJob (.USER_DELETION user.id dto.force))
          else env2
        (.ok user, env3)

/-- `UserAdminService.restore`: resolve the target including soft-deleted or
fail not-found; restore the user's albums; write `deletedAt = null` and
`status = ACTIVE` in one update. -/
def restore (env : Env) (_auth : AuthDto) (id : Nat) : Except Err User × Env :=
  match findOrFail env id true with
  | .error e => (.error e, env)
  | .ok _ =>
    let env1 := env.emit (.albumRestoreAll id)
    match userRepoUpdate env1 id { status := some .ACTIVE, deletedAt := some none } with
    | (none, env2) => (.error (.badRequest "User not found"), env2)
    | (some user, env2) => (.ok user, env2)

end UserAdminService

/-- The record-level consistency invariant: `deletedAt` is non-null iff the
status is DELETED or REMOVING. -/
def statusConsistent (u : User) : Prop :=
  u.deletedAt.isSome ↔ (u.status = .DELETED ∨ u.status = .REMOVING)

/-- A repo patch that writes `status` and `deletedAt` together,
consistently. -/
def patchWritesBoth (p : UserRepoPatch) : Prop :=
  ∃ s d, p.status = some s ∧ p.deletedAt = some d ∧ (d.isSome ↔ (s = .DELETED ∨ s = .REMOVING))

/-- Recognise a hard-deletion job in the trace. -/
def isUserDeletionJob : Event → Bool
  | .queueJob (.USER_DELETION _ _) => true
  | _ => false

/-- Recognise any job-queue call in the trace. -/
def isQueueJob : Event → Bool
  | .queueJob _ => true
  | _ => false

/-- Recognise a usage-resync call in the trace. -/
def isSyncUsage : Event → Bool
  | .syncUsage _ => true
  | _ => false

/-- Boolean success test for a service result. -/
def resultOk : Except Err User → Bool
  | .ok _ => true
  | .error _ => false

/-- A sample admin user, for concrete instantiations. -/
def sampleAdmin : User :=
  { id := 1, email := "admin@x", name := "A", isAdmin := true, status := .ACTIVE,
    deletedAt := none, quotaSizeInBytes := none, shouldChangePassword := false,
    metadataPreferences := {} }

/-- A sample ordinary active user. -/
def sampleUser : User :=
  { id := 2, email := "u@x", name := "U", isAdmin := false, status := .ACTIVE,
    deletedAt := none, quotaSizeInBytes := some 100, shouldChangePassword := true,
    metadataPreferences := {} }

/-- A sample soft-deleted user. -/
def sampleDeleted : User :=
  { id := 3, email := "d@x", name := "D", isAdmin := false, status := .DELETED,
    deletedAt := some 5, quotaSizeInBytes := none, shouldChangePassword := false,
    metadataPreferences := {} }

/-- A sample environment holding the three users above. -/
def sampleEnv : Env :=
  { users := [sampleAdmin, sampleUser, sampleDeleted], events := [], time := 10, nextId := 7 }

/-- The update command used to exhibit the quota-resync truthiness gap. -/
def zeroQuotaDto : UserAdminUpdateDto := { quotaSizeInBytes := some (some 0) }

/-- An update command carrying both legacy preference shortcuts. -/
def prefsDto : UserAdminUpdateDto :=
  { memoriesEnabled := some false, avatarColor := some .blue }

/-- A create command with notify set and a password-change requirement. -/
def notifyCreateDto : UserAdminCreateDto :=
  { email := "w@x", password := "secret", name := "W",
    shouldChangePassword := true, notify := true }

theorem findById_of_userGet {users : List User} {id : Nat} {wd : Bool} {u : User}
    (h : userGet users id wd = some u) : ∃ w, findById users id = some w ∧ w.id = id := by
  induction users with
  | nil => simp [userGet] at h
  | cons a l ih =>
    by_cases ha : a.id = id
    · exact ⟨a, by simp [findById, List.find?_cons_of_pos, ha], ha⟩
    · rw [userGet, List.find?_cons_of_neg _ (by simp [ha])] at h
      obtain ⟨w, hw, hwid⟩ := ih h
      exact ⟨w, by rw [findById, List.find?_cons_of_neg _ (by simp [ha])]; exact hw, hwid⟩

theorem findById_of_mem {users : List User} {id : Nat}
    (h : ∃ u ∈ users, u.id = id) : ∃ w, findById users id = some w ∧ w.id = id := by
  induction users with
  | nil => simp at h
  | cons a l ih =>
    by_cases ha : a.id = id
    · exact ⟨a, by simp [findById, List.find?_cons_of_pos, ha], ha⟩
    · obtain ⟨u, hu, huid⟩ := h
      rcases List.mem_cons.mp hu with rfl | hu'
      · exact absurd huid ha
      · obtain ⟨w, hw, hwid⟩ := ih ⟨u, hu', huid⟩
        exact ⟨w, by rw [findById, List.find?_cons_of_neg _ (by simp [ha])]; exact hw, hwid⟩

theorem userGet_none_of_all_deleted {users : List User} {id : Nat}
    (h : ∀ u ∈ users, u.id = id → u.deletedAt.isSome) :
    userGet users id false = none := by
  rw [userGet, List.find?_eq_none]
  intro u hu
  by_cases ha : u.id = id
  · have hd := h u hu ha
    cases hdel : u.deletedAt with
    | none => rw [hdel] at hd; simp at hd
    | some t => simp [ha, hdel]
  · simp [ha]

theorem userGet_none_of_not_mem {users : List User} {id : Nat} {wd : Bool}
    (h : ∀ u ∈ users, u.id ≠ id) : userGet users id wd = none := by
  rw [userGet, List.find?_eq_none]
  intro u hu
  simp [h u hu]

theorem userGet_true_eq_findById (users : List User) (id : Nat) :
    userGet users id true = findById users id := by
  simp [userGet, findById]

theorem mem_storeUpdate {users : List User} {id : Nat} {f : User → User} {v : User}
    (hv : v ∈ storeUpdate users id f) : ∃ w ∈ users, v = w ∨ v = f w := by
  obtain ⟨w, hw, he⟩ := List.mem_map.mp hv
  by_cases h : w.id = id
  · exact ⟨w, hw, Or.inr (by simpa [h] using he.symm)⟩
  · exact ⟨w, hw, Or.inl (by simpa [h] using he.symm)⟩

theorem mem_storeUpdate_self {users : List User} {id : Nat} {f : User → User} {v : User}
    (hv : v ∈ storeUpdate users id f) (hid : v.id = id) :
    ∃ w ∈ users, w.id = id ∧ v = f w := by
  obtain ⟨w, hw, he⟩ := List.mem_map.mp hv
  by_cases h : w.id = id
  · exact ⟨w, hw, h, by simpa [h] using he.symm⟩
  · exfalso
    have hvw : v = w := by simpa [h] using he.symm
    exact h (hvw ▸ hid)

theorem findById_storeUpdate {users : List User} {id : Nat} {f : User → User}
    (hf : ∀ w, (f w).id = w.id) :
    findById (storeUpdate users id f) id = (findById users id).map f := by
  induction users with
  | nil => rfl
  | cons a l ih =>
    by_cases ha : a.id = id
    · simp [storeUpdate, findById, List.find?_cons, ha, hf a] at *
    · simp [storeUpdate, findById, List.find?_cons, ha, hf a] at *
      exact ih

theorem storeUpdate_idem {users : List User} {id : Nat} {f : User → User}
    (hid : ∀ w, (f w).id = w.id) (hf : ∀ w, f (f w) = f w) :
    storeUpdate (storeUpdate users id f) id f = storeUpdate users id f := by
  induction users with
  | nil => rfl
  | cons a l ih =>
    by_cases ha : a.id = id
    · have h1 : (a.id == id) = true := by simp [ha]
      have h2 : ((f a).id == id) = true := by simp [hid a, ha]
      simp only [storeUpdate, List.map_cons] at *
      rw [if_pos h1, if_pos h2, hf a]
      exact congrArg _ ih
    · have h1 : ¬((a.id == id) = true) := by simp [ha]
      simp only [storeUpdate, List.map_cons] at *
      rw [if_neg h1, if_neg h1]
      exact congrArg _ ih

theorem storeUpdate_consistent {users : List User} {id : Nat} {f : User → User}
    (h : ∀ u ∈ users, statusConsistent u)
    (hf : ∀ w, (f w).status = w.status ∧ (f w).deletedAt = w.deletedAt) :
    ∀ v ∈ storeUpdate users id f, statusConsistent v := by
  intro v hv
  obtain ⟨w, hw, hc⟩ := mem_storeUpdate hv
  rcases hc with h1 | h1
  · rw [h1]
    exact h w hw
  · have hcw := h w hw
    rw [h1]
    unfold statusConsistent at hcw ⊢
    rw [(hf w).1, (hf w).2]
    exact hcw

theorem applyUpdateDto_frame (dto : UserAdminUpdateDto) (w : User) :
    (applyUpdateDto dto w).status = w.status ∧ (applyUpdateDto dto w).deletedAt = w.deletedAt := by
  simp [applyUpdateDto]

theorem applyRepoPatch_id (p : UserRepoPatch) (w : User) : (applyRepoPatch p w).id = w.id := rfl

theorem applyUpdateDto_id (dto : UserAdminUpdateDto) (w : User) :
    (applyUpdateDto dto w).id = w.id := rfl

theorem storeUpdate_frozen {users : List User} {id : Nat} {f : User → User}
    (h : ∀ u ∈ users, u.id ≠ id) : storeUpdate users id f = users := by
  induction users with
  | nil => rfl
  | cons a l ih =>
    rw [storeUpdate, List.map_cons,
      if_neg (by simp [h a (List.mem_cons_self a l)] : ¬((a.id == id) = true))]
    exact congrArg _ (ih (fun u hu => h u (List.mem_cons_of_mem a hu)))

theorem storeUpdate_append_fresh {users : List User} {u0 : User} {f : User → User}
    (h : ∀ u ∈ users, u.id ≠ u0.id) :
    storeUpdate (users ++ [u0]) u0.id f = users ++ [f u0] := by
  unfold storeUpdate
  rw [List.map_append]
  congr 1
  · exact storeUpdate_frozen h
  · simp

theorem userGet_append_self {users : List User} {u0 : User}
    (h : ∀ u ∈ users, u.id ≠ u0.id) (hdel : u0.deletedAt = none) :
    userGet (users ++ [u0]) u0.id false = some u0 := by
  unfold userGet
  rw [List.find?_append]
  have h1 : users.find? (fun u => u.id == u0.id && (false || u.deletedAt.isNone)) = none := by
    rw [List.find?_eq_none]
    intro u hu
    simp [h u hu]
  rw [h1]
  simp [hdel]

theorem delete_notfound (env : Env) (auth : AuthDto) (id : Nat) (dto : UserAdminDeleteDto)
    (h : userGet env.users id false = none) :
    UserAdminService.delete env auth id dto = (.error (.badRequest "User not found"), env) := by
  simp [UserAdminService.delete, findOrFail, h]

theorem delete_admin_shape (env : Env) (auth : AuthDto) (id : Nat) (dto : UserAdminDeleteDto)
    (u : User) (h : userGet env.users id false = some u) (hAdmin : u.isAdmin = true) :
    UserAdminService.delete env auth id dto =
      (.error (.forbidden "Cannot delete admin user"), env) := by
  simp [UserAdminService.delete, findOrFail, h, hAdmin]

theorem delete_ok_shape (env : Env) (auth : AuthDto) (id : Nat) (dto : UserAdminDeleteDto)
    (u w : User) (h : userGet env.users id false = some u) (hAdmin : u.isAdmin = false)
    (hw : findById env.users id = some w) :
    UserAdminService.delete env auth id dto =
      (.ok (applyRepoPatch { status := some (if dto.force then .REMOVING else .DELETED),
                             deletedAt := some (some env.time) } w),
       { env with
           users := storeUpdate env.users id
             (applyRepoPatch { status := some (if dto.force then .REMOVING else .DELETED),
                               deletedAt := some (some env.time) }),
           events := env.events ++
             ([.albumSoftDeleteAll id,
               .userUpdate id { status := some (if dto.force then .REMOVING else .DELETED),
                                deletedAt := some (some env.time) }] ++
              (if dto.force then [.queueJob (.USER_DELETION w.id true)] else [])) }) := by
  obtain ⟨force⟩ := dto
  cases force <;>
    simp [UserAdminService.delete, findOrFail, h, hAdmin, Env.emit, userRepoUpdate, hw,
      applyRepoPatch_id, List.append_assoc]

theorem restore_notfound (env : Env) (auth : AuthDto) (id : Nat)
    (h : ∀ u ∈ env.users, u.id ≠ id) :
    UserAdminService.restore env auth id = (.error (.badRequest "User not found"), env) := by
  have hg : userGet env.users id true = none := userGet_none_of_not_mem h
  simp [UserAdminService.restore, findOrFail, hg]

theorem restore_ok_shape (env : Env) (auth : AuthDto) (id : Nat) (w : User)
    (hw : findById env.users id = some w) :
    UserAdminService.restore env auth id =
      (.ok (applyRepoPatch { status := some .ACTIVE, deletedAt := some none } w),
       { env with
           users := storeUpdate env.users id
             (applyRepoPatch { status := some .ACTIVE, deletedAt := some none }),
           events := env.events ++
             [.albumRestoreAll id,
              .userUpdate id { status := some .ACTIVE, deletedAt := some none }] }) := by
  have hg : userGet env.users id true = some w := by
    rw [userGet_true_eq_findById]
    exact hw
  simp [UserAdminService.restore, findOrFail, hg, Env.emit, userRepoUpdate, hw,
    List.append_assoc]

theorem create_ok_shape (env : Env) (dto : UserAdminCreateDto)
    (hEmail : ∀ u ∈ env.users, u.email ≠ dto.email)
    (hId : ∀ u ∈ env.users, u.id ≠ env.nextId) :
    UserAdminService.create env dto =
      (.ok (if dto.memoriesEnabled == some false then
              { newUserRecord env dto with
                  metadataPreferences := { memoriesEnabled := some false } }
            else newUserRecord env dto),
       { env with
           users := env.users ++
             [if dto.memoriesEnabled == some false then
                { newUserRecord env dto with
                    metadataPreferences := { memoriesEnabled := some false } }
              else newUserRecord env dto],
           nextId := env.nextId + 1,
           events := env.events ++
             ((if dto.memoriesEnabled == some false then
                 [Event.upsertMetadata env.nextId
                   { memoriesEnabled := some false, avatarColor := none }]
               else []) ++
              (if dto.notify then
                 [Event.queueJob (.NOTIFY_SIGNUP env.nextId
                    (if dto.shouldChangePassword then some dto.password else none))]
               else [])) }) := by
  have hany : env.users.any (fun v => v.email == dto.email) = false := by
    rw [List.any_eq_false]
    intro v hv
    simp [hEmail v hv]
  have hfresh : ∀ v ∈ env.users, v.id ≠ (newUserRecord env dto).id := by
    intro v hv
    simpa [newUserRecord] using hId v hv
  cases hm : dto.memoriesEnabled == some false with
  | false =>
    cases hn : dto.notify <;>
      simp [UserAdminService.create, userCoreCreateUser, newUserRecord, hany, hm, hn, Env.emit,
        List.append_assoc]
  | true =>
    have hstore := storeUpdate_append_fresh
      (f := fun v => { v with metadataPreferences := { memoriesEnabled := some false } }) hfresh
    have hget : userGet (env.users ++ [{ newUserRecord env dto with
        metadataPreferences := { memoriesEnabled := some false } }])
          (newUserRecord env dto).id false =
        some { newUserRecord env dto with
                 metadataPreferences := { memoriesEnabled := some false } } := by
      apply userGet_append_self
      · intro v hv
        simpa using hfresh v hv
      · rfl
    simp only [newUserRecord] at hstore hget
    cases hn : dto.notify <;>
      simp [UserAdminService.create, userCoreCreateUser, upsertMetadata, hany, hm, hn,
        Env.emit, hstore, hget, newUserRecord, List.append_assoc]

theorem update_notfound (env : Env) (auth : AuthDto) (id : Nat) (dto : UserAdminUpdateDto)
    (h : userGet env.users id false = none) :
    UserAdminService.update env auth id dto = (.error (.badRequest "User not found"), env) := by
  simp [UserAdminService.update, findOrFail, h]

theorem update_events_shape (env : Env) (auth : AuthDto) (id : Nat) (dto : UserAdminUpdateDto)
    (u : User) (h : userGet env.users id false = some u) :
    (UserAdminService.update env auth id dto).2.events =
      env.events ++
        ((if quotaTruthy dto.quotaSizeInBytes &&
             !(match dto.quotaSizeInBytes with
               | some q => u.quotaSizeInBytes == q
               | none => false) then [Event.syncUsage id] else []) ++
         ((if dto.memoriesEnabled.isSome || dto.avatarColor.isSome then
             [Event.upsertMetadata id (getPreferencesPartial u
               { memoriesEnabled := dto.memoriesEnabled.getD (getPreferences u).memoriesEnabled,
                 avatarColor := dto.avatarColor.getD (getPreferences u).avatarColor })]
           else []) ++
          [Event.userCoreUpdate id
             { dto with memoriesEnabled := none, avatarColor := none }])) := by
  obtain ⟨de, dn, dq, ds, dm, da⟩ := dto
  cases dm <;> cases da <;>
    by_cases hc : (quotaTruthy dq && !(match dq with
        | some q => u.quotaSizeInBytes == q
        | none => false)) = true <;>
    simp [UserAdminService.update, findOrFail, h, hc, Env.emit, upsertMetadata,
      userCoreUpdateUser, List.append_assoc]

theorem update_users_consistent (env : Env) (auth : AuthDto) (id : Nat)
    (dto : UserAdminUpdateDto) (h : ∀ u ∈ env.users, statusConsistent u) :
    ∀ v ∈ (UserAdminService.update env auth id dto).2.users, statusConsistent v := by
  cases hfind : userGet env.users id false with
  | none => simpa [UserAdminService.update, findOrFail, hfind] using h
  | some u =>
    obtain ⟨de, dn, dq, ds, dm, da⟩ := dto
    cases dm <;> cases da <;>
      · simp [UserAdminService.update, findOrFail, hfind, userCoreUpdateUser,
          upsertMetadata, Env.emit, apply_ite Env.users, ite_self]
        first
        | exact storeUpdate_consistent h (fun w => applyUpdateDto_frame _ w)
        | exact storeUpdate_consistent
            (storeUpdate_consistent h (fun w => ⟨rfl, rfl⟩))
            (fun w => applyUpdateDto_frame _ w)

theorem storeUpdate_consistent_forced {users : List User} {id : Nat} {f : User → User}
    (h : ∀ u ∈ users, statusConsistent u) (hf : ∀ w, statusConsistent (f w)) :
    ∀ v ∈ storeUpdate users id f, statusConsistent v := by
  intro v hv
  obtain ⟨w, hw, hc⟩ := mem_storeUpdate hv
  rcases hc with h1 | h1
  · rw [h1]
    exact h w hw
  · rw [h1]
    exact hf w

theorem restore_notfound_get (env : Env) (auth : AuthDto) (id : Nat)
    (h : userGet env.users id true = none) :
    UserAdminService.restore env auth id = (.error (.badRequest "User not found"), env) := by
  simp [UserAdminService.restore, findOrFail, h]

theorem delete_users_consistent (env : Env) (auth : AuthDto) (id : Nat)
    (dto : UserAdminDeleteDto) (h : ∀ u ∈ env.users, statusConsistent u) :
    ∀ v ∈ (UserAdminService.delete env auth id dto).2.users, statusConsistent v := by
  cases hfind : userGet env.users id false with
  | none =>
    rw [delete_notfound env auth id dto hfind]
    exact h
  | some u =>
    by_cases hAdmin : u.isAdmin = true
    · rw [delete_admin_shape env auth id dto u hfind hAdmin]
      exact h
    · obtain ⟨w, hw, hwid⟩ := findById_of_userGet hfind
      rw [delete_ok_shape env auth id dto u w hfind (by simpa using hAdmin) hw]
      exact storeUpdate_consistent_forced h
        (fun v => by
          obtain ⟨force⟩ := dto
          cases force <;> simp [statusConsistent, applyRepoPatch])

theorem restore_users_consistent (env : Env) (auth : AuthDto) (id : Nat)
    (h : ∀ u ∈ env.users, statusConsistent u) :
    ∀ v ∈ (UserAdminService.restore env auth id).2.users, statusConsistent v := by
  cases hfind : userGet env.users id true with
  | none =>
    rw [restore_notfound_get env auth id hfind]
    exact h
  | some u =>
    have hw : findById env.users id = some u := by
      rw [← userGet_true_eq_findById]
      exact hfind
    rw [restore_ok_shape env auth id u hw]
    exact storeUpdate_consistent_forced h
      (fun v => by simp [statusConsistent, applyRepoPatch])

theorem delete_events_patches (env : Env) (auth : AuthDto) (id : Nat)
    (dto : UserAdminDeleteDto) :
    ∀ i p, Event.userUpdate i p ∈
        (UserAdminService.delete env auth id dto).2.events.drop env.events.length →
      patchWritesBoth p := by
  intro i p hmem
  cases hfind : userGet env.users id false with
  | none =>
    rw [delete_notfound env auth id dto hfind] at hmem
    simp [List.drop_length] at hmem
  | some u =>
    by_cases hAdmin : u.isAdmin = true
    · rw [delete_admin_shape env auth id dto u hfind hAdmin] at hmem
      simp [List.drop_length] at hmem
    · obtain ⟨w, hw, hwid⟩ := findById_of_userGet hfind
      rw [delete_ok_shape env auth id dto u w hfind (by simpa using hAdmin) hw] at hmem
      obtain ⟨force⟩ := dto
      cases force <;> simp [List.drop_left] at hmem <;>
        exact hmem.2 ▸
          ⟨_, some env.time, rfl, rfl, by cases hb : (false : Bool) <;> simp⟩

theorem restore_events_patches (env : Env) (auth : AuthDto) (id : Nat) :
    ∀ i p, Event.userUpdate i p ∈
        (UserAdminService.restore env auth id).2.events.drop env.events.length →
      patchWritesBoth p := by
  intro i p hmem
  cases hfind : userGet env.users id true with
  | none =>
    rw [restore_notfound_get env auth id hfind] at hmem
    simp [List.drop_length] at hmem
  | some u =>
    have hw : findById env.users id = some u := by
      rw [← userGet_true_eq_findById]
      exact hfind
    rw [restore_ok_shape env auth id u hw] at hmem
    simp [List.drop_left] at hmem
    exact hmem.2 ▸ ⟨.ACTIVE, none, rfl, rfl, by simp⟩

theorem update_events_no_userUpdate (env : Env) (auth : AuthDto) (id : Nat)
    (dto : UserAdminUpdateDto) :
    ∀ i p, Event.userUpdate i p ∉
      (UserAdminService.update env auth id dto).2.events.drop env.events.length := by
  intro i p
  cases hfind : userGet env.users id false with
  | none =>
    rw [update_notfound env auth id dto hfind]
    simp [List.drop_length]
  | some u =>
    have hsh := update_events_shape env auth id dto u hfind
    rw [hsh, List.drop_left]
    split_ifs <;> simp

theorem create_users_consistent (env : Env) (dto : UserAdminCreateDto)
    (h : ∀ u ∈ env.users, statusConsistent u) :
    ∀ v ∈ (UserAdminService.create env dto).2.users, statusConsistent v := by
  have hnew : statusConsistent (newUserRecord env dto) := by
    simp [statusConsistent, newUserRecord]
  have happ : ∀ v ∈ env.users ++ [newUserRecord env dto], statusConsistent v := by
    intro v hv
    rcases List.mem_append.mp hv with hv | hv
    · exact h v hv
    · rw [List.mem_singleton] at hv
      exact hv ▸ hnew
  unfold UserAdminService.create userCoreCreateUser
  by_cases hany : (env.users.any fun v => v.email == dto.email) = true
  · simpa [hany] using h
  · cases hm : dto.memoriesEnabled == some false with
    | false =>
      cases hn : dto.notify <;> simpa [hany, hm, hn, Env.emit] using happ
    | true =>
      have hupd : ∀ v ∈ storeUpdate (env.users ++ [newUserRecord env dto])
          (newUserRecord env dto).id
          (fun w => { w with metadataPreferences := { memoriesEnabled := some false } }),
          statusConsistent v :=
        storeUpdate_consistent happ (fun w => ⟨rfl, rfl⟩)
      simp only [hany, hm, Bool.false_eq_true, if_false, if_true, upsertMetadata, Env.emit]
      split <;> cases hn : dto.notify <;> simpa [hany, hn, Env.emit] using hupd

theorem create_events_no_userUpdate (env : Env) (dto : UserAdminCreateDto) :
    ∀ i p, Event.userUpdate i p ∉
      (UserAdminService.create env dto).2.events.drop env.events.length := by
  intro i p
  unfold UserAdminService.create userCoreCreateUser
  by_cases hany : (env.users.any fun v => v.email == dto.email) = true
  · simp [hany, List.drop_length]
  · cases hm : dto.memoriesEnabled == some false with
    | false =>
      cases hn : dto.notify <;>
        simp [hany, hm, hn, Env.emit, List.drop_length, List.drop_left]
    | true =>
      simp only [hany, hm, Bool.false_eq_true, if_false, if_true, upsertMetadata, Env.emit]
      split <;> cases hn : dto.notify <;>
        simp [hany, hn, Env.emit, List.append_assoc, List.drop_left, List.drop_length]

/-- C1: `delete` on a user id that resolves to a user with `isAdmin = true`
fails with the forbidden-class error "Cannot delete admin user" for both
`force = true` and `force = false`, and returns the environment unchanged:
no status or deletedAt write reaches the user store and no side effect is
recorded. -/
theorem C1_delete_admin_forbidden (env : Env) (auth : AuthDto) (id : Nat) (u : User)
    (h : userGet env.users id false = some u) (hAdmin : u.isAdmin = true) :
    UserAdminService.delete env auth id { force := true } =
      (.error (.forbidden "Cannot delete admin user"), env) ∧
    UserAdminService.delete env auth id { force := false } =
      (.error (.forbidden "Cannot delete admin user"), env) :=
  ⟨delete_admin_shape env auth id { force := true } u h hAdmin,
   delete_admin_shape env auth id { force := false } u h hAdmin⟩

/-- C1 witness: deleting the sample admin (id 1) is rejected for both force
values and leaves the environment unchanged. -/
theorem C1_delete_admin_forbidden_witness :
    UserAdminService.delete sampleEnv { userId := 0 } 1 { force := true } =
      (.error (.forbidden "Cannot delete admin user"), sampleEnv) ∧
    UserAdminService.delete sampleEnv { userId := 0 } 1 { force := false } =
      (.error (.forbidden "Cannot delete admin user"), sampleEnv) :=
  C1_delete_admin_forbidden sampleEnv { userId := 0 } 1 sampleAdmin rfl rfl

/-- C2: `delete` with `force = false` on an existing, non-deleted,
non-admin user returns that user with status DELETED and a non-null
deletedAt (the current time), writes those fields to every store row with
that id, and enqueues no USER_DELETION job. -/
theorem C2_delete_soft (env : Env) (auth : AuthDto) (id : Nat) (u : User)
    (h : userGet env.users id false = some u) (hAdmin : u.isAdmin = false) :
    ∃ u', (UserAdminService.delete env auth id { force := false }).1 = .ok u' ∧
      u'.status = .DELETED ∧ u'.deletedAt = some env.time ∧
      (∀ v ∈ (UserAdminService.delete env auth id { force := false }).2.users,
        v.id = id → v.status = .DELETED ∧ v.deletedAt = some env.time) ∧
      (∀ i f, Event.queueJob (.USER_DELETION i f) ∉
        (UserAdminService.delete env auth id { force := false }).2.events.drop
          env.events.length) := by
  obtain ⟨w, hw, hwid⟩ := findById_of_userGet h
  have hsh : UserAdminService.delete env auth id { force := false } =
      (.ok (applyRepoPatch { status := some .DELETED, deletedAt := some (some env.time) } w),
       { env with
           users := storeUpdate env.users id
             (applyRepoPatch { status := some .DELETED, deletedAt := some (some env.time) }),
           events := env.events ++
             [.albumSoftDeleteAll id,
              .userUpdate id { status := some .DELETED, deletedAt := some (some env.time) }] }) := by
    simpa using delete_ok_shape env auth id { force := false } u w h hAdmin hw
  refine ⟨applyRepoPatch { status := some .DELETED, deletedAt := some (some env.time) } w,
    ?_, rfl, rfl, ?_, ?_⟩
  · rw [hsh]
  · rw [hsh]
    intro v hv hvid
    obtain ⟨w', hw', hwid', hveq⟩ := mem_storeUpdate_self hv hvid
    rw [hveq]
    exact ⟨rfl, rfl⟩
  · rw [hsh]
    intro i f
    simp [List.drop_left]

/-- C2 witness: soft-deleting the sample ordinary user (id 2). -/
theorem C2_delete_soft_witness :
    ∃ u', (UserAdminService.delete sampleEnv { userId := 0 } 2 { force := false }).1 = .ok u' ∧
      u'.status = .DELETED ∧ u'.deletedAt = some sampleEnv.time ∧
      (∀ v ∈ (UserAdminService.delete sampleEnv { userId := 0 } 2 { force := false }).2.users,
        v.id = 2 → v.status = .DELETED ∧ v.deletedAt = some sampleEnv.time) ∧
      (∀ i f, Event.queueJob (.USER_DELETION i f) ∉
        (UserAdminService.delete sampleEnv { userId := 0 } 2 { force := false }).2.events.drop
          sampleEnv.events.length) :=
  C2_delete_soft sampleEnv { userId := 0 } 2 sampleUser rfl rfl

/-- C3: `delete` with `force = true` on an existing, non-deleted, non-admin
user returns that user with status REMOVING and a non-null deletedAt,
writes those fields to every store row with that id, and enqueues exactly
one job, the USER_DELETION job carrying that user id and the force flag. -/
theorem C3_delete_force (env : Env) (auth : AuthDto) (id : Nat) (u : User)
    (h : userGet env.users id false = some u) (hAdmin : u.isAdmin = false) :
    ∃ u', (UserAdminService.delete env auth id { force := true }).1 = .ok u' ∧
      u'.status = .REMOVING ∧ u'.deletedAt = some env.time ∧
      (∀ v ∈ (UserAdminService.delete env auth id { force := true }).2.users,
        v.id = id → v.status = .REMOVING ∧ v.deletedAt = some env.time) ∧
      ((UserAdminService.delete env auth id { force := true }).2.events.drop
          env.events.length).filter isQueueJob =
        [Event.queueJob (.USER_DELETION id true)] := by
  obtain ⟨w, hw, hwid⟩ := findById_of_userGet h
  have hsh : UserAdminService.delete env auth id { force := true } =
      (.ok (applyRepoPatch { status := some .REMOVING, deletedAt := some (some env.time) } w),
       { env with
           users := storeUpdate env.users id
             (applyRepoPatch { status := some .REMOVING, deletedAt := some (some env.time) }),
           events := env.events ++
             [.albumSoftDeleteAll id,
              .userUpdate id { status := some .REMOVING, deletedAt := some (some env.time) },
              .queueJob (.USER_DELETION id true)] }) := by
    simpa [hwid] using delete_ok_shape env auth id { force := true } u w h hAdmin hw
  refine ⟨applyRepoPatch { status := some .REMOVING, deletedAt := some (some env.time) } w,
    ?_, rfl, rfl, ?_, ?_⟩
  · rw [hsh]
  · rw [hsh]
    intro v hv hvid
    obtain ⟨w', hw', hwid', hveq⟩ := mem_storeUpdate_self hv hvid
    rw [hveq]
    exact ⟨rfl, rfl⟩
  · rw [hsh]
    simp [List.drop_left, isQueueJob]

/-- C3 witness: force-deleting the sample ordinary user (id 2). -/
theorem C3_delete_force_witness :
    ∃ u', (UserAdminService.delete sampleEnv { userId := 0 } 2 { force := true }).1 = .ok u' ∧
      u'.status = .REMOVING ∧ u'.deletedAt = some sampleEnv.time ∧
      (∀ v ∈ (UserAdminService.delete sampleEnv { userId := 0 } 2 { force := true }).2.users,
        v.id = 2 → v.status = .REMOVING ∧ v.deletedAt = some sampleEnv.time) ∧
      ((UserAdminService.delete sampleEnv { userId := 0 } 2 { force := true }).2.events.drop
          sampleEnv.events.length).filter isQueueJob =
        [Event.queueJob (.USER_DELETION 2 true)] :=
  C3_delete_force sampleEnv { userId := 0 } 2 sampleUser rfl rfl

/-- C4: `restore` on a user id that resolves (soft-deleted included) to a
soft-deleted user returns that user with deletedAt null and status ACTIVE,
writes those fields to every store row with that id, and records the
album-store restoreAll call for that user. -/
theorem C4_restore_soft_deleted (env : Env) (auth : AuthDto) (id : Nat) (u : User)
    (h : userGet env.users id true = some u) (hdel : u.deletedAt.isSome = true) :
    ∃ u', (UserAdminService.restore env auth id).1 = .ok u' ∧
      u'.deletedAt = none ∧ u'.status = .ACTIVE ∧
      (∀ v ∈ (UserAdminService.restore env auth id).2.users,
        v.id = id → v.deletedAt = none ∧ v.status = .ACTIVE) ∧
      Event.albumRestoreAll id ∈
        (UserAdminService.restore env auth id).2.events.drop env.events.length := by
  have hw : findById env.users id = some u := by
    rw [← userGet_true_eq_findById]
    exact h
  have hsh := restore_ok_shape env auth id u hw
  refine ⟨applyRepoPatch { status := some .ACTIVE, deletedAt := some none } u,
    ?_, rfl, rfl, ?_, ?_⟩
  · rw [hsh]
  · rw [hsh]
    intro v hv hvid
    obtain ⟨w', hw', hwid', hveq⟩ := mem_storeUpdate_self hv hvid
    rw [hveq]
    exact ⟨rfl, rfl⟩
  · rw [hsh]
    simp [List.drop_left]

/-- C4 witness: restoring the sample soft-deleted user (id 3). -/
theorem C4_restore_soft_deleted_witness :
    ∃ u', (UserAdminService.restore sampleEnv { userId := 0 } 3).1 = .ok u' ∧
      u'.deletedAt = none ∧ u'.status = .ACTIVE ∧
      (∀ v ∈ (UserAdminService.restore sampleEnv { userId := 0 } 3).2.users,
        v.id = 3 → v.deletedAt = none ∧ v.status = .ACTIVE) ∧
      Event.albumRestoreAll 3 ∈
        (UserAdminService.restore sampleEnv { userId := 0 } 3).2.events.drop
          sampleEnv.events.length :=
  C4_restore_soft_deleted sampleEnv { userId := 0 } 3 sampleDeleted rfl rfl

/-- C5: every orchestrator operation preserves the invariant that a user's
deletedAt is non-null iff its status is DELETED or REMOVING; every
status/deletedAt patch handed to the user store (by delete or restore)
writes the two fields together and consistently, and update and create
hand the user store no status/deletedAt patch at all; search writes
nothing. -/
theorem C5_status_deletedAt_consistency (env : Env) (auth : AuthDto) (id : Nat) (wd : Bool)
    (cdto : UserAdminCreateDto) (udto : UserAdminUpdateDto) (ddto : UserAdminDeleteDto)
    (h : ∀ u ∈ env.users, statusConsistent u) :
    (∀ v ∈ (UserAdminService.create env cdto).2.users, statusConsistent v) ∧
    (∀ v ∈ (UserAdminService.update env auth id udto).2.users, statusConsistent v) ∧
    (∀ v ∈ (UserAdminService.delete env auth id ddto).2.users, statusConsistent v) ∧
    (∀ v ∈ (UserAdminService.restore env auth id).2.users, statusConsistent v) ∧
    (UserAdminService.search env auth wd).2 = env ∧
    (∀ i p, Event.userUpdate i p ∈
        (UserAdminService.delete env auth id ddto).2.events.drop env.events.length →
      patchWritesBoth p) ∧
    (∀ i p, Event.userUpdate i p ∈
        (UserAdminService.restore env auth id).2.events.drop env.events.length →
      patchWritesBoth p) ∧
    (∀ i p, Event.userUpdate i p ∉
        (UserAdminService.update env auth id udto).2.events.drop env.events.length) ∧
    (∀ i p, Event.userUpdate i p ∉
        (UserAdminService.create env cdto).2.events.drop env.events.length) :=
  ⟨create_users_consistent env cdto h,
   update_users_consistent env auth id udto h,
   delete_users_consistent env auth id ddto h,
   restore_users_consistent env auth id h,
   rfl,
   delete_events_patches env auth id ddto,
   restore_events_patches env auth id,
   update_events_no_userUpdate env auth id udto,
   create_events_no_userUpdate env cdto⟩

/-- C5 witness: the invariant-preservation theorem applied to the sample
environment with concrete commands. -/
theorem C5_status_deletedAt_consistency_witness :
    (∀ v ∈ (UserAdminService.create sampleEnv
        { email := "n@x", password := "pw", name := "N" }).2.users, statusConsistent v) ∧
    (∀ v ∈ (UserAdminService.update sampleEnv { userId := 0 } 2
        { name := some "M" }).2.users, statusConsistent v) ∧
    (∀ v ∈ (UserAdminService.delete sampleEnv { userId := 0 } 2
        { force := true }).2.users, statusConsistent v) ∧
    (∀ v ∈ (UserAdminService.restore sampleEnv { userId := 0 } 2).2.users, statusConsistent v) ∧
    (UserAdminService.search sampleEnv { userId := 0 } false).2 = sampleEnv ∧
    (∀ i p, Event.userUpdate i p ∈
        (UserAdminService.delete sampleEnv { userId := 0 } 2
          { force := true }).2.events.drop sampleEnv.events.length →
      patchWritesBoth p) ∧
    (∀ i p, Event.userUpdate i p ∈
        (UserAdminService.restore sampleEnv { userId := 0 } 2).2.events.drop
          sampleEnv.events.length →
      patchWritesBoth p) ∧
    (∀ i p, Event.userUpdate i p ∉
        (UserAdminService.update sampleEnv { userId := 0 } 2
          { name := some "M" }).2.events.drop sampleEnv.events.length) ∧
    (∀ i p, Event.userUpdate i p ∉
        (UserAdminService.create sampleEnv
          { email := "n@x", password := "pw", name := "N" }).2.events.drop
          sampleEnv.events.length) :=
  C5_status_deletedAt_consistency sampleEnv { userId := 0 } 2 false
    { email := "n@x", password := "pw", name := "N" } { name := some "M" } { force := true }
    (by
      simp only [statusConsistent]
      decide)

/-- C6 counterexample: the claim as stated fails on the code. The sample
store holds user 2 with stored quota 100; the command sets quotaSizeInBytes
to 0, a value different from the stored one, and the update succeeds, yet
no syncUsage call is recorded in the entire trace, because the source
guards the resync with JavaScript truthiness (`dto.quotaSizeInBytes && ...`)
and 0 is falsy. -/
theorem C6_quota_resync_counterexample :
    userGet sampleEnv.users 2 false = some sampleUser ∧
    sampleUser.quotaSizeInBytes = some 100 ∧
    zeroQuotaDto.quotaSizeInBytes = some (some 0) ∧
    some (0 : Int) ≠ sampleUser.quotaSizeInBytes ∧
    resultOk (UserAdminService.update sampleEnv { userId := 0 } 2 zeroQuotaDto).1 = true ∧
    (UserAdminService.update sampleEnv { userId := 0 } 2 zeroQuotaDto).2.events.any isSyncUsage
      = false := by
  refine ⟨rfl, rfl, rfl, by decide, rfl, rfl⟩

/-- C6 (amended): for an existing, non-deleted user, `update` triggers a
syncUsage call for that user, before the user-core patch is applied,
exactly when the command carries a non-null, non-zero quotaSizeInBytes
different from the stored value; when the command carries no quota, a null
or zero quota, or a quota equal to the stored value, no syncUsage call is
made. -/
theorem C6_quota_resync_amended (env : Env) (auth : AuthDto) (id : Nat)
    (dto : UserAdminUpdateDto) (u : User) (h : userGet env.users id false = some u) :
    (∀ n : Int, dto.quotaSizeInBytes = some (some n) → n ≠ 0 →
      u.quotaSizeInBytes ≠ some n →
      ∃ mid dto2,
        (UserAdminService.update env auth id dto).2.events =
          env.events ++ Event.syncUsage id :: (mid ++ [Event.userCoreUpdate id dto2])) ∧
    ((∀ n : Int, dto.quotaSizeInBytes = some (some n) → n = 0 ∨ u.quotaSizeInBytes = some n) →
      ∀ j, Event.syncUsage j ∉
        (UserAdminService.update env auth id dto).2.events.drop env.events.length) := by
  have hsh := update_events_shape env auth id dto u h
  constructor
  · intro n hq hn0 hne
    have hcond : (quotaTruthy dto.quotaSizeInBytes &&
        !(match dto.quotaSizeInBytes with
          | some q => u.quotaSizeInBytes == q
          | none => false)) = true := by
      rw [hq]
      simp [quotaTruthy, hn0, hne]
    refine ⟨(if dto.memoriesEnabled.isSome || dto.avatarColor.isSome then
        [Event.upsertMetadata id (getPreferencesPartial u
          { memoriesEnabled := dto.memoriesEnabled.getD (getPreferences u).memoriesEnabled,
            avatarColor := dto.avatarColor.getD (getPreferences u).avatarColor })]
      else []),
      { dto with memoriesEnabled := none, avatarColor := none }, ?_⟩
    rw [hsh]
    simp [hcond, List.append_assoc]
  · intro hno j
    have hcond : (quotaTruthy dto.quotaSizeInBytes &&
        !(match dto.quotaSizeInBytes with
          | some q => u.quotaSizeInBytes == q
          | none => false)) = false := by
      cases hq : dto.quotaSizeInBytes with
      | none => simp [quotaTruthy]
      | some q =>
        cases q with
        | none => simp [quotaTruthy]
        | some n =>
          rcases hno n hq with h0 | heq
          · simp [quotaTruthy, h0]
          · simp [quotaTruthy, heq]
    rw [hsh]
    simp only [hcond, Bool.false_eq_true, if_false, List.nil_append, List.drop_left]
    split_ifs <;> simp

/-- C6 witness: the amended theorem applied to the sample user with stored
quota 100 and a command carrying quota 7 (resync fires, before the patch)
and, via the second conjunct, a command carrying quota 100 (no resync). -/
theorem C6_quota_resync_amended_witness :
    (∃ mid dto2,
      (UserAdminService.update sampleEnv { userId := 0 } 2
        { quotaSizeInBytes := some (some 7) }).2.events =
        sampleEnv.events ++ Event.syncUsage 2 :: (mid ++ [Event.userCoreUpdate 2 dto2])) ∧
    (∀ j, Event.syncUsage j ∉
      (UserAdminService.update sampleEnv { userId := 0 } 2
        { quotaSizeInBytes := some (some 100) }).2.events.drop sampleEnv.events.length) :=
  ⟨(C6_quota_resync_amended sampleEnv { userId := 0 } 2
      { quotaSizeInBytes := some (some 7) } sampleUser rfl).1 7 rfl (by decide) (by decide),
   (C6_quota_resync_amended sampleEnv { userId := 0 } 2
      { quotaSizeInBytes := some (some 100) } sampleUser rfl).2
     (by
       intro n hn
       right
       cases hn
       rfl)⟩

/-- C7: when the update command carries memoriesEnabled and/or avatarColor,
those keys are removed from the command before the generic user patch is
applied — the dto handed to the user core has both fields absent — and
their values are persisted only through a preferences-metadata upsert
whose value is the minimal diff of the overlaid preferences against the
user's current effective preferences; the upsert precedes the single
user-core patch. -/
theorem C7_update_preference_shortcuts (env : Env) (auth : AuthDto) (id : Nat)
    (dto : UserAdminUpdateDto) (u : User)
    (h : userGet env.users id false = some u)
    (hpref : dto.memoriesEnabled.isSome = true ∨ dto.avatarColor.isSome = true) :
    ∃ pre : List Event,
      (UserAdminService.update env auth id dto).2.events =
        env.events ++
          (pre ++ [Event.userCoreUpdate id
            { dto with memoriesEnabled := none, avatarColor := none }]) ∧
      Event.upsertMetadata id
          (getPreferencesPartial u
            { memoriesEnabled := dto.memoriesEnabled.getD (getPreferences u).memoriesEnabled,
              avatarColor := dto.avatarColor.getD (getPreferences u).avatarColor }) ∈ pre ∧
      (∀ i d, Event.userCoreUpdate i d ∉ pre) := by
  have hsh := update_events_shape env auth id dto u h
  have hp : (dto.memoriesEnabled.isSome || dto.avatarColor.isSome) = true := by
    rcases hpref with h1 | h1 <;> simp [h1]
  refine ⟨(if quotaTruthy dto.quotaSizeInBytes &&
        !(match dto.quotaSizeInBytes with
          | some q => u.quotaSizeInBytes == q
          | none => false) then [Event.syncUsage id] else []) ++
      [Event.upsertMetadata id (getPreferencesPartial u
        { memoriesEnabled := dto.memoriesEnabled.getD (getPreferences u).memoriesEnabled,
          avatarColor := dto.avatarColor.getD (getPreferences u).avatarColor })], ?_, ?_, ?_⟩
  · rw [hsh]
    simp [hp, List.append_assoc]
  · simp
  · intro i d
    split_ifs <;> simp

/-- C7 witness: updating the sample user with both shortcuts set. -/
theorem C7_update_preference_shortcuts_witness :
    ∃ pre : List Event,
      (UserAdminService.update sampleEnv { userId := 0 } 2 prefsDto).2.events =
        sampleEnv.events ++
          (pre ++ [Event.userCoreUpdate 2
            { prefsDto with memoriesEnabled := none, avatarColor := none }]) ∧
      Event.upsertMetadata 2
          (getPreferencesPartial sampleUser
            { memoriesEnabled :=
                prefsDto.memoriesEnabled.getD (getPreferences sampleUser).memoriesEnabled,
              avatarColor :=
                prefsDto.avatarColor.getD (getPreferences sampleUser).avatarColor }) ∈ pre ∧
      (∀ i d, Event.userCoreUpdate i d ∉ pre) :=
  C7_update_preference_shortcuts sampleEnv { userId := 0 } 2 prefsDto sampleUser rfl
    (Or.inl rfl)

/-- C8: a successful create enqueues, when notify is set and the created
user requires a password change, exactly one NOTIFY_SIGNUP job whose
payload carries the user id and the plaintext command password as
tempPassword; when the created user does not require a password change the
enqueued tempPassword is absent; and when notify is unset no job at all is
enqueued. -/
theorem C8_create_notify (env : Env) (dto : UserAdminCreateDto)
    (hEmail : ∀ u ∈ env.users, u.email ≠ dto.email)
    (hId : ∀ u ∈ env.users, u.id ≠ env.nextId) :
    ∃ user, (UserAdminService.create env dto).1 = .ok user ∧
      user.shouldChangePassword = dto.shouldChangePassword ∧
      (dto.notify = true → dto.shouldChangePassword = true →
        ((UserAdminService.create env dto).2.events.drop env.events.length).filter
            isQueueJob =
          [Event.queueJob (.NOTIFY_SIGNUP user.id (some dto.password))]) ∧
      (dto.notify = true → dto.shouldChangePassword = false →
        ((UserAdminService.create env dto).2.events.drop env.events.length).filter
            isQueueJob =
          [Event.queueJob (.NOTIFY_SIGNUP user.id none)]) ∧
      (dto.notify = false →
        ((UserAdminService.create env dto).2.events.drop env.events.length).filter
            isQueueJob = []) := by
  have hsh := create_ok_shape env dto hEmail hId
  refine ⟨(if dto.memoriesEnabled == some false then
      { newUserRecord env dto with metadataPreferences := { memoriesEnabled := some false } }
    else newUserRecord env dto), ?_, ?_, ?_, ?_, ?_⟩
  · rw [hsh]
  · cases hm : dto.memoriesEnabled == some false <;> simp [hm, newUserRecord]
  · intro hn hs
    rw [hsh]
    cases hm : dto.memoriesEnabled == some false <;>
      simp [hm, hn, hs, newUserRecord, isQueueJob, List.drop_left]
  · intro hn hs
    rw [hsh]
    cases hm : dto.memoriesEnabled == some false <;>
      simp [hm, hn, hs, newUserRecord, isQueueJob, List.drop_left]
  · intro hn
    rw [hsh]
    cases hm : dto.memoriesEnabled == some false <;>
      simp [hm, hn, newUserRecord, isQueueJob, List.drop_left]

/-- C8 witness: creating a fresh user in the sample environment with
notify set and shouldChangePassword true. -/
theorem C8_create_notify_witness :
    ∃ user, (UserAdminService.create sampleEnv notifyCreateDto).1 = .ok user ∧
      user.shouldChangePassword = notifyCreateDto.shouldChangePassword ∧
      (notifyCreateDto.notify = true → notifyCreateDto.shouldChangePassword = true →
        ((UserAdminService.create sampleEnv notifyCreateDto).2.events.drop
            sampleEnv.events.length).filter isQueueJob =
          [Event.queueJob (.NOTIFY_SIGNUP user.id (some notifyCreateDto.password))]) ∧
      (notifyCreateDto.notify = true → notifyCreateDto.shouldChangePassword = false →
        ((UserAdminService.create sampleEnv notifyCreateDto).2.events.drop
            sampleEnv.events.length).filter isQueueJob =
          [Event.queueJob (.NOTIFY_SIGNUP user.id none)]) ∧
      (notifyCreateDto.notify = false →
        ((UserAdminService.create sampleEnv notifyCreateDto).2.events.drop
            sampleEnv.events.length).filter isQueueJob = []) :=
  C8_create_notify sampleEnv notifyCreateDto (by decide) (by decide)

/-- C9: `delete` on a user id all of whose store records are soft-deleted
fails with the 400-class error "User not found" — the lookup excludes
soft-deleted rows — and the environment is returned unchanged, so no album
soft-delete, no status write and no job enqueue occurs. -/
theorem C9_delete_already_deleted (env : Env) (auth : AuthDto) (id : Nat)
    (dto : UserAdminDeleteDto)
    (hEx : ∃ u ∈ env.users, u.id = id)
    (hDel : ∀ u ∈ env.users, u.id = id → u.deletedAt.isSome) :
    UserAdminService.delete env auth id dto = (.error (.badRequest "User not found"), env) :=
  delete_notfound env auth id dto (userGet_none_of_all_deleted hDel)

/-- C9 witness: deleting the sample soft-deleted user (id 3) yields
"User not found" and leaves the environment unchanged. -/
theorem C9_delete_already_deleted_witness :
    UserAdminService.delete sampleEnv { userId := 0 } 3 { force := false } =
      (.error (.badRequest "User not found"), sampleEnv) :=
  C9_delete_already_deleted sampleEnv { userId := 0 } 3 { force := false }
    (by decide) (by decide)

/-- C10: restore never rejects an existing target and is idempotent: when a
record with the id exists, restore succeeds with status ACTIVE and
deletedAt null, a second restore immediately afterwards also succeeds and
leaves the user store in exactly the same state, and every store row with
that id ends ACTIVE with deletedAt null; when no record with the id exists
at all, restore fails with "User not found". -/
theorem C10_restore_idempotent (env : Env) (auth : AuthDto) (id : Nat) :
    ((∃ u ∈ env.users, u.id = id) →
      ∃ u1 u2,
        (UserAdminService.restore env auth id).1 = .ok u1 ∧
        u1.status = .ACTIVE ∧ u1.deletedAt = none ∧
        (UserAdminService.restore (UserAdminService.restore env auth id).2 auth id).1 =
          .ok u2 ∧
        u2.status = .ACTIVE ∧ u2.deletedAt = none ∧
        (UserAdminService.restore (UserAdminService.restore env auth id).2 auth id).2.users =
          (UserAdminService.restore env auth id).2.users ∧
        (∀ v ∈ (UserAdminService.restore env auth id).2.users, v.id = id →
          v.status = .ACTIVE ∧ v.deletedAt = none)) ∧
    ((∀ u ∈ env.users, u.id ≠ id) →
      UserAdminService.restore env auth id = (.error (.badRequest "User not found"), env)) := by
  constructor
  · intro hEx
    obtain ⟨w, hw, hwid⟩ := findById_of_mem hEx
    have hsh := restore_ok_shape env auth id w hw
    have hw2 : findById (UserAdminService.restore env auth id).2.users id =
        some (applyRepoPatch { status := some .ACTIVE, deletedAt := some none } w) := by
      rw [hsh]
      show findById (storeUpdate env.users id
        (applyRepoPatch { status := some .ACTIVE, deletedAt := some none })) id = _
      rw [findById_storeUpdate
        (f := applyRepoPatch { status := some .ACTIVE, deletedAt := some none })
        (fun v => rfl), hw]
      rfl
    have hsh2 := restore_ok_shape (UserAdminService.restore env auth id).2 auth id
      (applyRepoPatch { status := some .ACTIVE, deletedAt := some none } w) hw2
    refine ⟨applyRepoPatch { status := some .ACTIVE, deletedAt := some none } w,
      applyRepoPatch { status := some .ACTIVE, deletedAt := some none }
        (applyRepoPatch { status := some .ACTIVE, deletedAt := some none } w),
      ?_, rfl, rfl, ?_, rfl, rfl, ?_, ?_⟩
    · rw [hsh]
    · rw [hsh2]
    · rw [hsh2]
      show storeUpdate (UserAdminService.restore env auth id).2.users id
        (applyRepoPatch { status := some .ACTIVE, deletedAt := some none }) = _
      rw [hsh]
      show storeUpdate (storeUpdate env.users id
          (applyRepoPatch { status := some .ACTIVE, deletedAt := some none })) id
          (applyRepoPatch { status := some .ACTIVE, deletedAt := some none }) =
        storeUpdate env.users id
          (applyRepoPatch { status := some .ACTIVE, deletedAt := some none })
      exact storeUpdate_idem (fun v => rfl) (fun v => by simp [applyRepoPatch])
    · rw [hsh]
      intro v hv hvid
      obtain ⟨w', hw', hwid', hveq⟩ := mem_storeUpdate_self hv hvid
      rw [hveq]
      exact ⟨rfl, rfl⟩
  · intro hnone
    exact restore_notfound env auth id hnone

/-- C10 witness: restoring the sample soft-deleted user (id 3) twice, and
restoring a missing id (9). -/
theorem C10_restore_idempotent_witness :
    (∃ u1 u2,
      (UserAdminService.restore sampleEnv { userId := 0 } 3).1 = .ok u1 ∧
      u1.status = .ACTIVE ∧ u1.deletedAt = none ∧
      (UserAdminService.restore (UserAdminService.restore sampleEnv { userId := 0 } 3).2
          { userId := 0 } 3).1 = .ok u2 ∧
      u2.status = .ACTIVE ∧ u2.deletedAt = none ∧
      (UserAdminService.restore (UserAdminService.restore sampleEnv { userId := 0 } 3).2
          { userId := 0 } 3).2.users =
        (UserAdminService.restore sampleEnv { userId := 0 } 3).2.users ∧
      (∀ v ∈ (UserAdminService.restore sampleEnv { userId := 0 } 3).2.users, v.id = 3 →
        v.status = .ACTIVE ∧ v.deletedAt = none)) ∧
    UserAdminService.restore sampleEnv { userId := 0 } 9 =
      (.error (.badRequest "User not found"), sampleEnv) :=
  ⟨(C10_restore_idempotent sampleEnv { userId := 0 } 3).1 (by decide),
   (C10_restore_idempotent sampleEnv { userId := 0 } 9).2 (by decide)⟩

end Immich
